import Mathlib

/-!
Shallow embedding of `src/speech-to-text.py`: a FastAPI speech-to-text
service over the Whisper model library.  The external recognition model is
an opaque black box, modelled as a function parameter
`recognize : Nat → String → String → Except String String`
(model handle, audio path, language hint ↦ recognized text or an error).
Loaded model handles are modelled as fresh natural numbers.  The process
state records the model cache (an insertion-ordered dictionary from model
size to handle, as a Python dict), the set of files currently present in
the scratch directory, and the fresh-handle counter.  Request handling
produces an event trace recording file creations/deletions, model loads
and diagnostic notices, so temporal claims (cleanup runs exactly once, on
every exit path) can be stated about the trace.
-/

namespace SpeechToText

/-- `MODELS = ["tiny", "base", "small", "medium", "large"]` (line 29). -/
def MODELS : List String := ["tiny", "base", "small", "medium", "large"]

/-- `TEMP_DIR = "temp_audio"` (line 25), the scratch directory. -/
def TEMP_DIR : String := "temp_audio"

/-- The single-quote character, used to render Python list reprs. -/
def sq : Char := '\x27'

/-- Python `repr` of a string: the text wrapped in single quotes. -/
def pyRepr (s : String) : String :=
  String.mk (sq :: (s.toList ++ [sq]))

/-- Python `repr` of a list of strings, as interpolated by an f-string. -/
def pyListRepr (l : List String) : String :=
  "[" ++ String.intercalate ", " (l.map pyRepr) ++ "]"

/-- The detail message of the 400 response (line 61):
`f"Model must be one of \x7bMODELS\x7d"`. -/
def invalidModelDetail : String :=
  "Model must be one of " ++ pyListRepr MODELS

/-- Characters of the path after the last occurrence of `sep`
(the whole list when `sep` does not occur). -/
def afterLast (sep : Char) : List Char → List Char
  | [] => []
  | c :: rest =>
      if c = sep ∨ rest.contains sep then afterLast sep rest else c :: rest

/-- Split a character list at its last dot: returns
`some (before, after)` when a dot occurs, `none` otherwise. -/
def splitLastDot : List Char → Option (List Char × List Char)
  | [] => none
  | c :: rest =>
      match splitLastDot rest with
      | some (pre, suf) => some (c :: pre, suf)
      | none => if c = '.' then some ([], rest) else none

/-- `os.path.splitext(p)[1]`: the extension of `p`, i.e. the suffix of the
basename from its last dot, provided some character of the basename before
that dot is not itself a dot (so a leading-dot name has no extension). -/
def splitext_ext (p : String) : String :=
  match splitLastDot (afterLast '/' p.toList) with
  | some (pre, suf) =>
      if pre.any (fun c => c ≠ '.') then String.mk ('.' :: suf) else ""
  | none => ""

/-- `os.path.splitext(p)[0]`: `p` with its extension removed. -/
def splitext_root (p : String) : String :=
  String.mk (p.toList.take (p.toList.length - (splitext_ext p).toList.length))

/-- Python `str.lower()` applied characterwise. -/
def py_lower (s : String) : String := s.map Char.toLower

/-- Pydantic model `TranscriptionResponse` (lines 34-38). -/
structure TranscriptionResponse where
  text : String
  filename : String
  language : String
  model : String
deriving Repr, DecidableEq

/-- Outcome of an HTTP request: a JSON body on success, or an
`HTTPException` with a status code and a detail message. -/
inductive HttpResult where
  | ok (r : TranscriptionResponse)
  | error (status : Nat) (detail : String)
deriving Repr, DecidableEq

/-- Observable side effects of request handling: a file appearing in the
scratch directory, a file being removed from it, a Whisper model being
loaded, and the diagnostic `print` before a load. -/
inductive Event where
  | fileCreated (path : String)
  | fileDeleted (path : String)
  | modelLoaded (size : String)
  | notice (size : String)
deriving Repr, DecidableEq

/-- Process state: the model cache `model_cache` (line 32, a Python dict
modelled as an insertion-ordered association list), the files currently in
the scratch directory, and the counter generating fresh model handles. -/
structure ServerState where
  model_cache : List (String × Nat)
  scratch : List String
  next_handle : Nat
deriving Repr, DecidableEq

/-- The state at process start: empty cache, empty scratch directory. -/
def initialState : ServerState := ⟨[], [], 0⟩

/-- Lookup in a Python dict modelled as an association list
(first binding wins; keys are unique in every reachable state). -/
def dict_find : List (String × Nat) → String → Option Nat
  | [], _ => none
  | kv :: rest, key => if kv.1 = key then some kv.2 else dict_find rest key

/-- The unique temporary path of a request (lines 64-65):
`f"\x7bTEMP_DIR\x7d/\x7buuid.uuid4()\x7d\x7bfile_ext\x7d"` where
`file_ext = os.path.splitext(file.filename)[1].lower()`; the generated
uuid string is a parameter of the model. -/
def temp_file_path (uuidStr filename : String) : String :=
  TEMP_DIR ++ "/" ++ uuidStr ++ py_lower (splitext_ext filename)

/-- `cleanup_file` (lines 40-43): remove the file if it exists; a missing
file is not an error.  Returns the new scratch contents and the emitted
deletion events. -/
def cleanup_file (path : String) (scratch : List String) :
    List String × List Event :=
  if path ∈ scratch then (scratch.erase path, [Event.fileDeleted path])
  else (scratch, [])

/-- Lines 76-80 of `transcribe_audio`: look the requested size up in the
cache; on a miss, print the diagnostic notice, load the model (a fresh
handle) and store it keyed by the size.  Returns the handle to use, the
new state and the emitted events. -/
def get_or_load (model_name : String) (s : ServerState) :
    Nat × ServerState × List Event :=
  match dict_find s.model_cache model_name with
  | some h => (h, s, [])
  | none =>
      (s.next_handle,
       { s with
           model_cache := s.model_cache ++ [(model_name, s.next_handle)],
           next_handle := s.next_handle + 1 },
       [Event.notice model_name, Event.modelLoaded model_name])

/-- The `POST /transcribe/` handler body (lines 45-97).  Rejects an
unlisted model size with a 400 before touching the file system; otherwise
writes the upload to the unique temporary path, schedules `cleanup_file`
as a background task, resolves the model through the cache, and invokes
the black-box recognition call.  On success it returns the response
together with the still-pending background task; if the recognition call
raises, the handler removes the temporary file inline and raises a 500
whose detail embeds the underlying error text — and because the handler
raises, FastAPI discards the scheduled background task, so the returned
pending-task list is empty on that path.  Result components: the HTTP
outcome, the state after the handler, the events emitted by the handler,
and the background tasks still pending when the response is finalized. -/
def transcribe_audio (recognize : Nat → String → String → Except String String)
    (uuidStr filename model_name language : String) (s : ServerState) :
    HttpResult × ServerState × List Event × List String :=
  if model_name ∉ MODELS then
    (HttpResult.error 400 invalidModelDetail, s, [], [])
  else
    let p := temp_file_path uuidStr filename
    let s1 : ServerState := { s with scratch := s.scratch ++ [p] }
    let r2 := get_or_load model_name s1
    match recognize r2.1 p language with
    | Except.ok text =>
        (HttpResult.ok ⟨text, filename, language, model_name⟩, r2.2.1,
         Event.fileCreated p :: r2.2.2, [p])
    | Except.error e =>
        let c := cleanup_file p r2.2.1.scratch
        (HttpResult.error 500 ("Error during transcription: " ++ e),
         { r2.2.1 with scratch := c.1 },
         Event.fileCreated p :: (r2.2.2 ++ c.2), [])

/-- Run the pending background tasks (each one a `cleanup_file` on a
scheduled path) after the response has been sent. -/
def run_background (tasks : List String) (scratch : List String) :
    List String × List Event :=
  match tasks with
  | [] => (scratch, [])
  | p :: rest =>
      let c := cleanup_file p scratch
      let r := run_background rest c.1
      (r.1, c.2 ++ r.2)

/-- A complete `POST /transcribe/` request: the handler runs, the response
is finalized, then the pending background tasks run.  Returns the HTTP
outcome, the final state, and the full ordered event trace. -/
def run_request (recognize : Nat → String → String → Except String String)
    (uuidStr filename model_name language : String) (s : ServerState) :
    HttpResult × ServerState × List Event :=
  let r := transcribe_audio recognize uuidStr filename model_name language s
  let b := run_background r.2.2.2 r.2.1.scratch
  (r.1, { r.2.1 with scratch := b.1 }, r.2.2.1 ++ b.2)

/-- The `GET /models/` handler (lines 99-102): the fixed enumeration,
independent of the process state. -/
def get_available_models (_s : ServerState) : List String := MODELS

/-- The `GET /health/` handler (lines 104-110): the static readiness
marker and `list(model_cache.keys())`. -/
def health_check (s : ServerState) : String × List String :=
  ("healthy", s.model_cache.map Prod.fst)

/-- The model sizes recorded as loaded in an event trace, in order. -/
def loadedSizes (tr : List Event) : List String :=
  tr.filterMap (fun e =>
    match e with
    | Event.modelLoaded m => some m
    | _ => none)

/-- States reachable in one process lifetime: the initial state followed
by any sequence of completed `POST /transcribe/` requests (the read-only
GET endpoints do not change the state).  The trace accumulates the events
of every request so far. -/
inductive Reachable : ServerState → List Event → Prop where
  | init : Reachable initialState []
  | step {s : ServerState} {tr : List Event}
      (recognize : Nat → String → String → Except String String)
      (uuidStr filename model_name language : String)
      {res : HttpResult} {s2 : ServerState} {evs : List Event} :
      Reachable s tr →
      run_request recognize uuidStr filename model_name language s =
        (res, s2, evs) →
      Reachable s2 (tr ++ evs)

/-- Read a file from a directory modelled as name-to-contents bindings. -/
def fs_read : List (String × String) → String → Option String
  | [], _ => none
  | kv :: rest, name => if kv.1 = name then some kv.2 else fs_read rest name

/-- Write a file into a directory, overwriting any existing file of that
name. -/
def fs_write (dir : List (String × String)) (name content : String) :
    List (String × String) :=
  dir.filter (fun kv => kv.1 ≠ name) ++ [(name, content)]

/-- Modelled from the spec: the interactive CLI entry point is not present
under `src/` (only the HTTP server file is), so this follows §4.5 of the
spec.  The program lists the input directory, prompts for a filename
(default "speech.mp3"), a model size (default "base") and a language hint
(default "tr"), validates only that the file exists (aborting gracefully
when it does not), invokes the transcription workflow on the file in
place via the black-box call, and writes the resulting text to a sibling
file named `<original-stem>_transcription.txt`, overwriting any existing
file of that name.  A prompt answered by accepting the default is
modelled as `none`; the black-box call is the `stub` parameter (path,
model size, language ↦ text).  Returns the directory contents after the
run, or `none` when the program aborts because the file does not exist. -/
def cli_run (dir : List (String × String))
    (fileAnswer modelAnswer langAnswer : Option String)
    (stub : String → String → String → String) :
    Option (List (String × String)) :=
  let filename := fileAnswer.getD "speech.mp3"
  let model_size := modelAnswer.getD "base"
  let language := langAnswer.getD "tr"
  match fs_read dir filename with
  | none => none
  | some _ =>
      let text := stub filename model_size language
      some (fs_write dir (splitext_root filename ++ "_transcription.txt") text)

/-! Helper lemmas about the embedded operations. -/

theorem fs_read_fs_write (dir : List (String × String)) (name content : String) :
    fs_read (fs_write dir name content) name = some content := by
  induction dir with
  | nil => simp [fs_write, fs_read]
  | cons kv rest ih =>
      by_cases h : kv.1 = name
      · simpa [fs_write, h] using ih
      · simpa [fs_write, fs_read, h] using ih

theorem dict_find_append_self (l : List (String × Nat)) (m : String) (h : Nat)
    (hnone : dict_find l m = none) :
    dict_find (l ++ [(m, h)]) m = some h := by
  induction l with
  | nil => simp [dict_find]
  | cons kv rest ih =>
      by_cases hk : kv.1 = m
      · simp [dict_find, hk] at hnone
      · simp [dict_find, hk] at hnone ⊢
        exact ih hnone

theorem get_or_load_scratch (m : String) (s : ServerState) :
    ((get_or_load m s).2.1).scratch = s.scratch := by
  unfold get_or_load
  cases dict_find s.model_cache m <;> rfl

theorem get_or_load_keys (m : String) (s : ServerState) :
    ((get_or_load m s).2.1).model_cache.map Prod.fst =
      s.model_cache.map Prod.fst ++ loadedSizes (get_or_load m s).2.2 := by
  unfold get_or_load
  cases dict_find s.model_cache m <;> simp [loadedSizes]

theorem get_or_load_events (m : String) (s : ServerState) :
    (get_or_load m s).2.2 = [] ∨
      (get_or_load m s).2.2 = [Event.notice m, Event.modelLoaded m] := by
  unfold get_or_load
  cases dict_find s.model_cache m
  · right; rfl
  · left; rfl

theorem loadedSizes_append (a b : List Event) :
    loadedSizes (a ++ b) = loadedSizes a ++ loadedSizes b := by
  simp [loadedSizes]

/-- After model-size validation succeeds, a complete request is the file
creation, the cache lookup-or-load, the recognition call, and exactly one
`cleanup_file` on the temporary path — via the background task on the
success path, inline before the 500 is raised on the failure path. -/
theorem run_request_eq (recognize : Nat → String → String → Except String String)
    (u f m l : String) (s : ServerState) (hm : m ∈ MODELS) :
    run_request recognize u f m l s =
      (let p := temp_file_path u f
       let s1 : ServerState := { s with scratch := s.scratch ++ [p] }
       let r2 := get_or_load m s1
       let c := cleanup_file p r2.2.1.scratch
       ((match recognize r2.1 p l with
         | Except.ok text => HttpResult.ok ⟨text, f, l, m⟩
         | Except.error e =>
             HttpResult.error 500 ("Error during transcription: " ++ e)),
        { r2.2.1 with scratch := c.1 },
        Event.fileCreated p :: (r2.2.2 ++ c.2))) := by
  unfold run_request transcribe_audio
  rw [if_neg (not_not_intro hm)]
  cases hrec : recognize
      (get_or_load m { s with scratch := s.scratch ++ [temp_file_path u f] }).1
      (temp_file_path u f) l with
  | ok text => simp [hrec, run_background]
  | error e => simp [hrec, run_background]

/-- The state after a validated request, by projection from
`run_request_eq`: the cache state left by the lookup-or-load, with the
temporary path removed from the scratch directory again. -/
theorem run_request_state (recognize : Nat → String → String → Except String String)
    (u f m l : String) (s : ServerState) (hm : m ∈ MODELS) :
    (run_request recognize u f m l s).2.1 =
      { (get_or_load m { s with scratch := s.scratch ++ [temp_file_path u f] }).2.1 with
          scratch := (cleanup_file (temp_file_path u f)
            (get_or_load m
              { s with scratch := s.scratch ++ [temp_file_path u f] }).2.1.scratch).1 } := by
  rw [run_request_eq recognize u f m l s hm]

/-- The event trace of a validated request, by projection from
`run_request_eq`: the file creation, then the cache events, then exactly
the deletion events of one `cleanup_file` on the temporary path. -/
theorem run_request_trace (recognize : Nat → String → String → Except String String)
    (u f m l : String) (s : ServerState) (hm : m ∈ MODELS) :
    (run_request recognize u f m l s).2.2 =
      Event.fileCreated (temp_file_path u f) ::
        ((get_or_load m { s with scratch := s.scratch ++ [temp_file_path u f] }).2.2 ++
         (cleanup_file (temp_file_path u f)
           (get_or_load m
             { s with scratch := s.scratch ++ [temp_file_path u f] }).2.1.scratch).2) := by
  rw [run_request_eq recognize u f m l s hm]

/-- Deleting the freshly written temporary file from the scratch
directory restores exactly the previous contents and reports the one
deletion. -/
theorem cleanup_file_appended (p : String) (sc : List String) (hfresh : p ∉ sc) :
    cleanup_file p (sc ++ [p]) = (sc, [Event.fileDeleted p]) := by
  unfold cleanup_file
  rw [if_pos (by simp)]
  rw [List.erase_append_right _ hfresh]
  simp

/-- The deletion events of `cleanup_file` on the freshly written
temporary file, with no freshness assumption. -/
theorem cleanup_file_events_appended (p : String) (sc : List String) :
    (cleanup_file p (sc ++ [p])).2 = [Event.fileDeleted p] := by
  unfold cleanup_file
  rw [if_pos (by simp)]

theorem loadedSizes_cleanup (p : String) (sc : List String) :
    loadedSizes (cleanup_file p sc).2 = [] := by
  unfold cleanup_file
  split <;> simp [loadedSizes]

/-- A complete request extends the cache keys by exactly the model sizes
its trace records as loaded. -/
theorem run_request_keys (recognize : Nat → String → String → Except String String)
    (u f m l : String) (s : ServerState) :
    ((run_request recognize u f m l s).2.1).model_cache.map Prod.fst =
      s.model_cache.map Prod.fst ++
        loadedSizes (run_request recognize u f m l s).2.2 := by
  by_cases hm : m ∈ MODELS
  · rw [run_request_state recognize u f m l s hm,
        run_request_trace recognize u f m l s hm]
    simp only [get_or_load_scratch]
    rw [cleanup_file_events_appended]
    simp [get_or_load_keys, loadedSizes_append, loadedSizes]
  · unfold run_request transcribe_audio
    rw [if_pos hm]
    simp [run_background, loadedSizes]

theorem run_request_keys_of (recognize : Nat → String → String → Except String String)
    (u f m l : String) (s : ServerState)
    {res : HttpResult} {s2 : ServerState} {evs : List Event}
    (h : run_request recognize u f m l s = (res, s2, evs)) :
    s2.model_cache.map Prod.fst =
      s.model_cache.map Prod.fst ++ loadedSizes evs := by
  have hk := run_request_keys recognize u f m l s
  rw [h] at hk
  simpa using hk

/-- A complete request records either no model load at all, or exactly
one load of its (validated) requested model size. -/
theorem run_request_loaded (recognize : Nat → String → String → Except String String)
    (u f m l : String) (s : ServerState) :
    loadedSizes (run_request recognize u f m l s).2.2 = [] ∨
      (loadedSizes (run_request recognize u f m l s).2.2 = [m] ∧ m ∈ MODELS) := by
  by_cases hm : m ∈ MODELS
  · rw [run_request_trace recognize u f m l s hm]
    simp only [get_or_load_scratch]
    rw [cleanup_file_events_appended]
    rcases get_or_load_events m
        { s with scratch := s.scratch ++ [temp_file_path u f] } with h2 | h2 <;>
      rw [h2] <;>
      simp [loadedSizes_append, loadedSizes, hm]
  · left
    unfold run_request transcribe_audio
    rw [if_pos hm]
    simp [run_background, loadedSizes]

theorem run_request_loaded_of (recognize : Nat → String → String → Except String String)
    (u f m l : String) (s : ServerState)
    {res : HttpResult} {s2 : ServerState} {evs : List Event}
    (h : run_request recognize u f m l s = (res, s2, evs)) :
    loadedSizes evs = [] ∨ (loadedSizes evs = [m] ∧ m ∈ MODELS) := by
  have hl := run_request_loaded recognize u f m l s
  rw [h] at hl
  simpa using hl

/-! The claims. -/

/-- C1: for every `POST /transcribe/` request that passes model-size
validation and writes a temporary audio file to a fresh unique path, the
temporary file is absent from the scratch directory after the request
completes — for every behaviour of the black-box recognition call, so
both when the transcription succeeds and when it fails. -/
theorem C1_temp_file_absent_after_request
    (recognize : Nat → String → String → Except String String)
    (u f m l : String) (s : ServerState)
    (hm : m ∈ MODELS)
    (hfresh : temp_file_path u f ∉ s.scratch) :
    temp_file_path u f ∉ (run_request recognize u f m l s).2.1.scratch := by
  rw [run_request_state recognize u f m l s hm]
  simp only [get_or_load_scratch]
  rw [cleanup_file_appended (temp_file_path u f) s.scratch hfresh]
  exact hfresh

/-- Witness for C1 at a concrete request from the initial state. -/
theorem C1_witness :
    "base" ∈ MODELS ∧ temp_file_path "u1" "a.mp3" ∉ initialState.scratch ∧
      temp_file_path "u1" "a.mp3" ∉
        (run_request (fun _ _ _ => Except.ok "hi")
          "u1" "a.mp3" "base" "tr" initialState).2.1.scratch :=
  ⟨by decide, by decide,
    C1_temp_file_absent_after_request (fun _ _ _ => Except.ok "hi")
      "u1" "a.mp3" "base" "tr" initialState (by decide) (by decide)⟩

/-- C2: every validated request creates the temporary file exactly once
and deletes it exactly once, on every exit path — the trace of a complete
request holds exactly one creation and exactly one deletion of the
request's temporary path, for every behaviour of the recognition call. -/
theorem C2_store_release_exactly_once
    (recognize : Nat → String → String → Except String String)
    (u f m l : String) (s : ServerState)
    (hm : m ∈ MODELS) :
    ((run_request recognize u f m l s).2.2).count
        (Event.fileCreated (temp_file_path u f)) = 1 ∧
    ((run_request recognize u f m l s).2.2).count
        (Event.fileDeleted (temp_file_path u f)) = 1 := by
  rw [run_request_trace recognize u f m l s hm]
  simp only [get_or_load_scratch]
  rw [cleanup_file_events_appended]
  rcases get_or_load_events m
      { s with scratch := s.scratch ++ [temp_file_path u f] } with h2 | h2 <;>
    rw [h2] <;> simp

/-- Witness for C2 at a concrete request from the initial state. -/
theorem C2_witness :
    "base" ∈ MODELS ∧
      ((run_request (fun _ _ _ => Except.error "boom")
          "u1" "a.mp3" "base" "tr" initialState).2.2).count
        (Event.fileCreated (temp_file_path "u1" "a.mp3")) = 1 ∧
      ((run_request (fun _ _ _ => Except.error "boom")
          "u1" "a.mp3" "base" "tr" initialState).2.2).count
        (Event.fileDeleted (temp_file_path "u1" "a.mp3")) = 1 :=
  ⟨by decide,
    C2_store_release_exactly_once (fun _ _ _ => Except.error "boom")
      "u1" "a.mp3" "base" "tr" initialState (by decide)⟩

/-- C3: a request whose model-size string is not in the enumeration is
rejected with a 400 client error, the process state is unchanged (no file
is written to the scratch directory, the model cache is untouched), and
no event at all is emitted — so no file write and no load attempt. -/
theorem C3_invalid_model_rejected_before_io
    (recognize : Nat → String → String → Except String String)
    (u f m l : String) (s : ServerState)
    (hm : m ∉ MODELS) :
    run_request recognize u f m l s =
      (HttpResult.error 400 invalidModelDetail, s, []) := by
  unfold run_request transcribe_audio
  rw [if_pos hm]
  simp [run_background]

/-- Witness for C3 at a concrete unsupported model size. -/
theorem C3_witness :
    "huge" ∉ MODELS ∧
      run_request (fun _ _ _ => Except.ok "hi") "u1" "a.mp3" "huge" "tr"
          initialState =
        (HttpResult.error 400 invalidModelDetail, initialState, []) :=
  ⟨by decide,
    C3_invalid_model_rejected_before_io (fun _ _ _ => Except.ok "hi")
      "u1" "a.mp3" "huge" "tr" initialState (by decide)⟩

/-- C4: for a model size in the enumeration, the first lookup loads the
model (emitting the load) and stores the handle keyed by that size; and
from any state in which that handle is stored, a further lookup returns
exactly the stored handle, changes nothing, and emits no event (no load,
no diagnostic notice). -/
theorem C4_cache_loads_once (m : String) (s : ServerState)
    (hm : m ∈ MODELS)
    (hfirst : dict_find s.model_cache m = none) :
    Event.modelLoaded m ∈ (get_or_load m s).2.2 ∧
    dict_find ((get_or_load m s).2.1).model_cache m =
      some (get_or_load m s).1 ∧
    ∀ s2 : ServerState,
      dict_find s2.model_cache m = some (get_or_load m s).1 →
      get_or_load m s2 = ((get_or_load m s).1, s2, []) := by
  refine ⟨?_, ?_, ?_⟩
  · unfold get_or_load
    rw [hfirst]
    simp
  · unfold get_or_load
    rw [hfirst]
    exact dict_find_append_self _ _ _ hfirst
  · intro s2 h2
    unfold get_or_load
    rw [h2]
    rfl

/-- Witness for C4: loading "base" into the empty cache and looking it up
again in the resulting state. -/
theorem C4_witness :
    Event.modelLoaded "base" ∈ (get_or_load "base" initialState).2.2 ∧
    dict_find ((get_or_load "base" initialState).2.1).model_cache "base" =
      some (get_or_load "base" initialState).1 ∧
    get_or_load "base" (get_or_load "base" initialState).2.1 =
      ((get_or_load "base" initialState).1,
       (get_or_load "base" initialState).2.1, []) :=
  ⟨(C4_cache_loads_once "base" initialState (by decide) (by decide)).1,
   (C4_cache_loads_once "base" initialState (by decide) (by decide)).2.1,
   (C4_cache_loads_once "base" initialState (by decide) (by decide)).2.2
     (get_or_load "base" initialState).2.1
     (C4_cache_loads_once "base" initialState (by decide) (by decide)).2.1⟩

/-- C5: a successful request answers with exactly the black-box text, the
original upload's file name, and the (possibly defaulted) language hint
and model size of the request — stated for any recognition stub that
deterministically returns a fixed text. -/
theorem C5_roundtrip_response
    (recognize : Nat → String → String → Except String String)
    (u f m l t : String) (s : ServerState)
    (hm : m ∈ MODELS)
    (hstub : ∀ h p lang, recognize h p lang = Except.ok t) :
    (run_request recognize u f m l s).1 = HttpResult.ok ⟨t, f, l, m⟩ := by
  rw [run_request_eq recognize u f m l s hm]
  simp [hstub]

/-- Witness for C5: the defaulted request (model "base", language "tr")
against the stub returning "merhaba dünya". -/
theorem C5_witness :
    "base" ∈ MODELS ∧
      (run_request (fun _ _ _ => Except.ok "merhaba dünya")
          "u1" "a.mp3" "base" "tr" initialState).1 =
        HttpResult.ok ⟨"merhaba dünya", "a.mp3", "tr", "base"⟩ :=
  ⟨by decide,
    C5_roundtrip_response (fun _ _ _ => Except.ok "merhaba dünya")
      "u1" "a.mp3" "base" "tr" "merhaba dünya" initialState (by decide)
      (fun _ _ _ => rfl)⟩

/-- C6: when the model invocation fails, the request answers with a 500
server error whose detail embeds the underlying error text; the handler
itself has already deleted the temporary file before the failure
propagates (the deletion is among the handler's own events and no
background task remains pending), and the file is absent afterwards. -/
theorem C6_failure_wraps_error_after_cleanup
    (recognize : Nat → String → String → Except String String)
    (u f m l e : String) (s : ServerState)
    (hm : m ∈ MODELS)
    (herr : ∀ h p lang, recognize h p lang = Except.error e)
    (hfresh : temp_file_path u f ∉ s.scratch) :
    (run_request recognize u f m l s).1 =
      HttpResult.error 500 ("Error during transcription: " ++ e) ∧
    (transcribe_audio recognize u f m l s).2.2.2 = [] ∧
    Event.fileDeleted (temp_file_path u f) ∈
      (transcribe_audio recognize u f m l s).2.2.1 ∧
    temp_file_path u f ∉ (run_request recognize u f m l s).2.1.scratch := by
  refine ⟨?_, ?_, ?_, ?_⟩
  · rw [run_request_eq recognize u f m l s hm]
    simp [herr]
  · unfold transcribe_audio
    rw [if_neg (not_not_intro hm)]
    simp [herr]
  · unfold transcribe_audio
    rw [if_neg (not_not_intro hm)]
    simp only [herr]
    simp [get_or_load_scratch, cleanup_file_events_appended]
  · rw [run_request_state recognize u f m l s hm]
    simp only [get_or_load_scratch]
    rw [cleanup_file_appended (temp_file_path u f) s.scratch hfresh]
    exact hfresh

/-- Witness for C6 at a concrete failing stub. -/
theorem C6_witness :
    "base" ∈ MODELS ∧
      (run_request (fun _ _ _ => Except.error "boom")
          "u2" "a.mp3" "base" "tr" initialState).1 =
        HttpResult.error 500 ("Error during transcription: " ++ "boom") ∧
      (transcribe_audio (fun _ _ _ => Except.error "boom")
          "u2" "a.mp3" "base" "tr" initialState).2.2.2 = [] ∧
      Event.fileDeleted (temp_file_path "u2" "a.mp3") ∈
        (transcribe_audio (fun _ _ _ => Except.error "boom")
          "u2" "a.mp3" "base" "tr" initialState).2.2.1 ∧
      temp_file_path "u2" "a.mp3" ∉
        (run_request (fun _ _ _ => Except.error "boom")
          "u2" "a.mp3" "base" "tr" initialState).2.1.scratch :=
  ⟨by decide,
    (C6_failure_wraps_error_after_cleanup (fun _ _ _ => Except.error "boom")
      "u2" "a.mp3" "base" "tr" "boom" initialState (by decide)
      (fun _ _ _ => rfl) (by decide)).1,
    (C6_failure_wraps_error_after_cleanup (fun _ _ _ => Except.error "boom")
      "u2" "a.mp3" "base" "tr" "boom" initialState (by decide)
      (fun _ _ _ => rfl) (by decide)).2.1,
    (C6_failure_wraps_error_after_cleanup (fun _ _ _ => Except.error "boom")
      "u2" "a.mp3" "base" "tr" "boom" initialState (by decide)
      (fun _ _ _ => rfl) (by decide)).2.2.1,
    (C6_failure_wraps_error_after_cleanup (fun _ _ _ => Except.error "boom")
      "u2" "a.mp3" "base" "tr" "boom" initialState (by decide)
      (fun _ _ _ => rfl) (by decide)).2.2.2⟩

/-- C8: `GET /models/` returns the fixed five-element enumeration in
every process state, regardless of what the cache holds. -/
theorem C8_models_endpoint_fixed (s : ServerState) :
    get_available_models s = ["tiny", "base", "small", "medium", "large"] :=
  rfl

/-- In every reachable state the cache keys are exactly the model sizes
whose loads the process trace records, in order. -/
theorem reachable_keys (s : ServerState) (tr : List Event)
    (h : Reachable s tr) :
    s.model_cache.map Prod.fst = loadedSizes tr := by
  induction h with
  | init => rfl
  | step recognize u f m l prev heq ih =>
      rw [run_request_keys_of recognize u f m l _ heq, ih, loadedSizes_append]

/-- C7: in every reachable process state `GET /health/` returns the
static readiness marker together with exactly the model sizes loaded so
far in that process (the sizes the trace records as loaded, in order);
in particular the list is empty in the initial state, before any
transcription request has loaded a model. -/
theorem C7_health_reflects_loads (s : ServerState) (tr : List Event)
    (h : Reachable s tr) :
    (health_check s).1 = "healthy" ∧ (health_check s).2 = loadedSizes tr :=
  ⟨rfl, reachable_keys s tr h⟩

/-- Witness for C7: the initial state, where no model is loaded yet. -/
theorem C7_witness :
    (health_check initialState).1 = "healthy" ∧
      (health_check initialState).2 = [] :=
  C7_health_reflects_loads initialState [] Reachable.init

/-- C9 (modelled from the spec: the CLI entry point is not under `src/`):
given an input directory containing `speech.mp3`, accepting the defaults
at every prompt, and a stub transcription returning "test output", the
run writes the sibling file `speech_transcription.txt` containing exactly
"test output", overwriting any existing file of that name (the initial
directory is arbitrary, so it may already contain such a file). -/
theorem C9_cli_default_scenario (dir : List (String × String))
    (stub : String → String → String → String) (audio : String)
    (hfile : fs_read dir "speech.mp3" = some audio)
    (hstub : ∀ p m l, stub p m l = "test output") :
    cli_run dir none none none stub =
      some (fs_write dir "speech_transcription.txt" "test output") ∧
    fs_read (fs_write dir "speech_transcription.txt" "test output")
        "speech_transcription.txt" = some "test output" := by
  constructor
  · simp only [cli_run, Option.getD_none]
    rw [hfile]
    simp only [hstub]
    rw [show splitext_root "speech.mp3" ++ "_transcription.txt" =
          "speech_transcription.txt" from by decide]
  · exact fs_read_fs_write dir _ _

/-- Witness for C9: a concrete directory that already holds a stale
output file. -/
theorem C9_witness :
    cli_run [("speech.mp3", "bytes"), ("speech_transcription.txt", "old")]
        none none none (fun _ _ _ => "test output") =
      some (fs_write
        [("speech.mp3", "bytes"), ("speech_transcription.txt", "old")]
        "speech_transcription.txt" "test output") ∧
    fs_read (fs_write
        [("speech.mp3", "bytes"), ("speech_transcription.txt", "old")]
        "speech_transcription.txt" "test output")
      "speech_transcription.txt" = some "test output" :=
  C9_cli_default_scenario
    [("speech.mp3", "bytes"), ("speech_transcription.txt", "old")]
    (fun _ _ _ => "test output") "bytes" (by decide) (fun _ _ _ => rfl)

/-- C10: in every reachable process state, every key of the model cache
belongs to the enumerated set, because a model is loaded only after the
request's model-size string passes validation; consequently
`GET /health/` can only ever list valid model sizes. -/
theorem C10_cache_keys_always_valid (s : ServerState) (tr : List Event)
    (h : Reachable s tr) :
    (∀ k ∈ s.model_cache.map Prod.fst, k ∈ MODELS) ∧
      ∀ k ∈ (health_check s).2, k ∈ MODELS := by
  have main : ∀ k ∈ s.model_cache.map Prod.fst, k ∈ MODELS := by
    induction h with
    | init => intro k hk; simp [initialState] at hk
    | step recognize u f m l prev heq ih =>
        intro k hk
        rw [run_request_keys_of recognize u f m l _ heq] at hk
        rcases List.mem_append.mp hk with hk | hk
        · exact ih k hk
        · rcases run_request_loaded_of recognize u f m l _ heq with hl | ⟨hl, hmm⟩
          · rw [hl] at hk
            cases hk
          · rw [hl] at hk
            rw [List.mem_singleton] at hk
            subst hk
            exact hmm
  exact ⟨main, main⟩

/-- Witness for C10: the state reached by one defaulted request, whose
cache holds "base"; the invariant places it in the enumeration. -/
theorem C10_witness : "base" ∈ MODELS :=
  (C10_cache_keys_always_valid
    (run_request (fun _ _ _ => Except.ok "hi")
      "u1" "a.mp3" "base" "tr" initialState).2.1
    ([] ++ (run_request (fun _ _ _ => Except.ok "hi")
      "u1" "a.mp3" "base" "tr" initialState).2.2)
    (Reachable.step (fun _ _ _ => Except.ok "hi") "u1" "a.mp3" "base" "tr"
      Reachable.init rfl)).1 "base" (by decide)

end SpeechToText
